import Mathlib

/-!
Verification development for the CSV analytics pipeline of the car-rental
backend (file `Car_Rental_bakcend.js`): the normalizer `normalizeSalesData`
and the four analytics endpoint handlers (top-seller, moving-average,
correlation, forecast).

Modelling conventions:
- JS numbers produced by `Number(...)` are modelled by `NumVal`: NaN,
  signed Infinity (from strings such as Infinity and from overflowing
  numerals), or a rational.  The arithmetic the analytics handlers perform
  is modelled on rationals, after the `|| 0` coercion the handlers apply
  at every read (which maps NaN to 0); that rational model is exact
  precisely on datasets whose stored values are finite, so every theorem
  about handler arithmetic carries that finiteness hypothesis, and a
  nonemptiness hypothesis where JS would compute 0/0 = NaN on an empty
  row list.
- JS objects parsed from CSV rows are modelled as association lists of
  string keys to string values in insertion order (CSV header order).
  `Object.keys` and `Object.entries` are modelled with the ES own-property
  enumeration order: keys that are canonical array indices first, in
  ascending numeric order, then the remaining string keys in insertion
  order (`jsKeyOrder`, `jsEntriesOrder`).
- The per-row `out` object of the normalizer holds its `date` field in the
  same namespace as the series columns: a series column named `date`
  overwrites the `Date` object with a number (`OutDate.numClobber`), and
  the subsequent `filter` calling `.getTime()` on that number throws a
  TypeError.  `filterRows` models the filter in `Except`, and
  `normalizeSalesData` returns a three-valued `NormResult`: null, thrown,
  or a normalized structure.  An uncaught exception in a handler is the
  `HResult.crash` response (a 500 through the framework).
- The host `Number` coercion of nonempty strings and the `new Date`
  parser are environment-supplied functions; the development is
  parametrised over them (`np` for numeric parsing, `dp` for date parsing
  where `none` models an invalid date).  The code paths independent of
  the host parser (empty string and absent value both coerce to 0 through
  `x || 0`) are modelled explicitly.
- `Math.sqrt` is modelled by `Real.sqrt`, so the Pearson computation lives
  in ℝ; all other statistics live in ℚ.
- `Number(v.toFixed(d))` is modelled as exact rounding of a rational or
  real to d decimal digits; `toFixed` strips the sign first and rounds a
  tie to the larger magnitude, so ties round away from zero.
-/

namespace CarRental

/-- A JS number as produced by `Number(...)`: NaN, a signed Infinity
(`Number` of the string Infinity, or an overflowing numeral), or a
rational. -/
inductive NumVal where
  | nan : NumVal
  | inf (pos : Bool) : NumVal
  | num (q : ℚ) : NumVal
deriving DecidableEq, Repr

/-- The coercion `v || 0` applied by every analytics handler when it reads
a stored series value: NaN is falsy and becomes 0, an Infinity is truthy
and kept, a finite number is kept (0 is falsy, and the falsy branch also
yields 0). -/
def NumVal.orZero : NumVal → NumVal
  | .nan => .num 0
  | .inf b => .inf b
  | .num q => .num q

/-- Whether a JS number is finite (neither Infinity); NaN counts as
finite here because after `|| 0` it contributes an exact 0. -/
def NumVal.isFinite : NumVal → Bool
  | .inf _ => false
  | _ => true

/-- The rational value of a JS number after the `|| 0` read coercion.
For a finite value this is exact; the Infinity fallback to 0 is never
relied upon — every theorem that reads series values into ℚ carries the
finiteness hypothesis `finiteValues`. -/
def NumVal.toRat : NumVal → ℚ
  | .num q => q
  | _ => 0

/-- A raw CSV row as produced by the csv parser: keys to raw string values,
in insertion (header) order. -/
abbrev RawRow := List (String × String)

/-- JS property access `r[c]` on a raw row: the value of the first entry
with the given key, or `undefined` (`none`). -/
def lookupCell (r : RawRow) (c : String) : Option String :=
  (r.find? (fun p => p.1 == c)).map Prod.snd

/-- The value stored for a series column by `normalizeSalesData`:
`Number(r[c] || 0)`.  An absent value (`undefined`) and the empty string
are falsy, so the argument of `Number` is 0 and the result is 0; any other
string goes through the host numeric parser `np` (NaN for non-numeric). -/
def cellNumber (np : String → NumVal) : Option String → NumVal
  | none => .num 0
  | some s => if s = "" then .num 0 else np s

/-- The date stored for a row: `new Date(r[dateCol])`, modelled as a
timestamp when the host date parser `dp` succeeds.  When the row has no
date column (empty first row) or the cell is absent, `new Date(undefined)`
is an Invalid Date, modelled as `none`. -/
def rowDate (dp : String → Option Int) (dateCol : Option String) (r : RawRow) :
    Option Int :=
  dateCol.bind fun dc => (lookupCell r dc).bind dp

/-! ## ES own-property enumeration order

`Object.keys` and `Object.entries` enumerate keys that are canonical
array indices (the decimal numeral, without leading zeros, of an integer
below 2^32 - 1) first, in ascending numeric order, and the remaining
string keys afterwards in insertion order. -/

/-- The numeric value of a decimal digit character. -/
def digit? (c : Char) : Option ℕ :=
  if '0' ≤ c ∧ c ≤ '9' then some (c.toNat - 48) else none

/-- The value of a digit string, accumulated left to right; `none` on a
non-digit character. -/
def digitsAcc : List Char → ℕ → Option ℕ
  | [], acc => some acc
  | c :: cs, acc =>
    match digit? c with
    | none => none
    | some d => digitsAcc cs (acc * 10 + d)

/-- The array index a string denotes, when it is a canonical array index:
a non-empty digit string without a leading zero (except 0 itself) whose
value is below 2^32 - 1. -/
def arrayIndex? (s : String) : Option ℕ :=
  match s.data with
  | [] => none
  | c :: cs =>
    if c = '0' ∧ cs ≠ [] then none
    else
      match digitsAcc (c :: cs) 0 with
      | none => none
      | some n => if n < 2 ^ 32 - 1 then some n else none

/-- One insertion step of the ascending sort by a numeric key. -/
def insertAscBy {α : Type} (key : α → ℕ) (x : α) : List α → List α
  | [] => [x]
  | y :: ys => if key y ≤ key x then y :: insertAscBy key x ys
    else x :: y :: ys

/-- Ascending sort by a numeric key (the keys are distinct in use, so any
deterministic sort models the specified enumeration). -/
def sortAscBy {α : Type} (key : α → ℕ) : List α → List α
  | [] => []
  | x :: xs => insertAscBy key x (sortAscBy key xs)

/-- `Object.keys`: array-index keys first in ascending numeric order,
then the remaining keys in insertion order. -/
def jsKeyOrder (keys : List String) : List String :=
  sortAscBy (fun s => (arrayIndex? s).getD 0)
      (keys.filter (fun s => (arrayIndex? s).isSome)) ++
    keys.filter (fun s => (arrayIndex? s).isNone)

/-- `Object.entries` of an object built by inserting the listed entries in
order: array-index keys first in ascending numeric order, then the rest in
insertion order. -/
def jsEntriesOrder (l : List (String × ℚ)) : List (String × ℚ) :=
  sortAscBy (fun p => (arrayIndex? p.1).getD 0)
      (l.filter (fun p => (arrayIndex? p.1).isSome)) ++
    l.filter (fun p => (arrayIndex? p.1).isNone)

/-! ## The normalizer -/

/-- The final value of the `date` field of the per-row `out` object.  The
field starts as `new Date(...)`; a series column named `date` then
overwrites it with the coerced number (`out[c] = Number(...)` writes into
the same object namespace). -/
inductive OutDate where
  | dateObj (t : Option Int) : OutDate
  | numClobber (v : NumVal) : OutDate
deriving DecidableEq, Repr

/-- The intermediate object `out` built by `normalizeSalesData` for one
raw row, before the filter: the date field (a `Date`, possibly Invalid,
or a number if clobbered) plus the coerced series values in series-column
order. -/
structure PRow where
  date : OutDate
  values : List (String × NumVal)
deriving DecidableEq, Repr

/-- A normalized row after the filter: a valid timestamp plus the coerced
series values. -/
structure NRow where
  date : Int
  values : List (String × NumVal)
deriving DecidableEq, Repr

instance : Inhabited NRow := ⟨⟨0, []⟩⟩

/-- The result of `normalizeSalesData` when it neither returns null nor
throws. -/
structure Normalized where
  dateCol : Option String
  seriesCols : List String
  parsed : List NRow
deriving DecidableEq, Repr

/-- The `out` object for one raw row given the inferred columns: the date
field is the parsed `Date` unless some series column is named `date`, in
which case the `forEach` over the series columns overwrites it with that
column's coerced number. -/
def toPRow (np : String → NumVal) (dp : String → Option Int)
    (dateCol : Option String) (seriesCols : List String) (r : RawRow) : PRow :=
  { date :=
      if "date" ∈ seriesCols then
        .numClobber (cellNumber np (lookupCell r "date"))
      else .dateObj (rowDate dp dateCol r)
    values := seriesCols.map (fun c => (c, cellNumber np (lookupCell r c))) }

/-- The filter predicate `!isNaN(x.date.getTime())` on a row whose date
field is still a `Date` object. -/
def dateOk (p : PRow) : Bool :=
  match p.date with
  | .dateObj t => t.isSome
  | .numClobber _ => false

/-- The filter `.filter(x => !isNaN(x.date.getTime()))`: evaluated left to
right; calling `.getTime()` on a clobbered (numeric) date field throws a
TypeError, otherwise rows with a valid timestamp are kept. -/
def filterRows : List PRow → Except Unit (List PRow)
  | [] => .ok []
  | p :: ps =>
    match p.date with
    | .numClobber _ => .error ()
    | .dateObj t =>
      match filterRows ps with
      | .error e => .error e
      | .ok kept => .ok (if t.isSome then p :: kept else kept)

/-- The finishing step for a row that survived the filter (a kept row
always holds a valid `Date`). -/
def finishRow (p : PRow) : NRow :=
  { date :=
      match p.date with
      | .dateObj t => t.getD 0
      | .numClobber _ => 0
    values := p.values }

/-- The three observable outcomes of `normalizeSalesData`. -/
inductive NormResult where
  | nullResult : NormResult
  | thrown : NormResult
  | ok (nd : Normalized) : NormResult
deriving DecidableEq, Repr

/-- `normalizeSalesData(rows)`: null on an absent or empty row list;
otherwise infer the date column as the first enumerated key of the first
row and the series columns as the remaining keys (ES enumeration order),
map every row to its `out` object, and filter out the rows whose date
failed to parse — a step that throws a TypeError when a series column
named `date` has clobbered the date field. -/
def normalizeSalesData (np : String → NumVal) (dp : String → Option Int) :
    Option (List RawRow) → NormResult
  | none => .nullResult
  | some [] => .nullResult
  | some (r0 :: rest) =>
    let cols := jsKeyOrder (r0.map Prod.fst)
    let dateCol := cols.head?
    let seriesCols := cols.tail
    let mapped := (r0 :: rest).map (toPRow np dp dateCol seriesCols)
    match filterRows mapped with
    | .error _ => .thrown
    | .ok kept =>
      .ok { dateCol := dateCol, seriesCols := seriesCols,
            parsed := kept.map finishRow }

/-! ## Rounding

`Number(v.toFixed(d))` rounds to d decimal digits.  `toFixed` first
strips the sign and then, on a tie, picks the larger integer, so ties
round away from zero. -/

/-- Round a rational to 4 decimal digits, ties away from zero (the
behaviour of `Number(v.toFixed(4))`). -/
def round4q (v : ℚ) : ℚ :=
  if v < 0 then -((⌊(-v) * 10000 + 1/2⌋ : ℤ) / 10000 : ℚ)
  else (⌊v * 10000 + 1/2⌋ : ℤ) / 10000

/-- Round a rational to 2 decimal digits, ties away from zero (the
behaviour of `Number(v.toFixed(2))`). -/
def round2q (v : ℚ) : ℚ :=
  if v < 0 then -((⌊(-v) * 100 + 1/2⌋ : ℤ) / 100 : ℚ)
  else (⌊v * 100 + 1/2⌋ : ℤ) / 100

/-- Round a real to 4 decimal digits, ties away from zero (the behaviour
of `Number(v.toFixed(4))`). -/
noncomputable def round4r (v : ℝ) : ℝ :=
  if v < 0 then -(((⌊(-v) * 10000 + 1/2⌋ : ℤ) : ℝ) / 10000)
  else ((⌊v * 10000 + 1/2⌋ : ℤ) : ℝ) / 10000

/-! ## Shared handler pieces -/

/-- The read `r[c] || 0` a handler performs on a normalized row object,
taken into ℚ: property access on the stored values, with `undefined`
(key absent) and NaN coerced to 0.  Exact for finite values; theorems
that use it on a dataset carry the `finiteValues` hypothesis. -/
def getOrZero (values : List (String × NumVal)) (c : String) : ℚ :=
  match (values.find? (fun p => p.1 == c)).map Prod.snd with
  | none => 0
  | some v => v.orZero.toRat

/-- The series extraction `normalized.parsed.map(r => r[c] || 0)` shared
by the moving-average, correlation and forecast handlers. -/
def seriesVals (nd : Normalized) (c : String) : List ℚ :=
  nd.parsed.map (fun r => getOrZero r.values c)

/-- Every value stored in the normalized rows is a finite JS number, so
the rational reading of the handlers' arithmetic is exact. -/
def finiteValues (nd : Normalized) : Prop :=
  ∀ row ∈ nd.parsed, ∀ p ∈ row.values, p.2.isFinite = true

instance (nd : Normalized) : Decidable (finiteValues nd) := by
  unfold finiteValues
  infer_instance

/-- A handler outcome: a JSON payload, a 400-class error with the
handler's message, or an uncaught exception (surfaced as a 500 by the
framework). -/
inductive HResult (α : Type) where
  | ok (a : α)
  | badRequest (msg : String)
  | crash
deriving DecidableEq

/-- The in-memory store `salesDataFiles`, keyed by uploaded-file id. -/
abbrev Store := String → Option (List RawRow)

/-! ## Top-seller handler -/

/-- One step of the stable sort of `Object.entries(totals)` by the
comparator `(a, b) => b[1] - a[1]`: insert an earlier entry into the sorted
later entries, before the first entry whose total is not strictly larger
(so among equal totals the earlier entry comes first, as JS `sort` is
stable). -/
def insertDesc (x : String × ℚ) : List (String × ℚ) → List (String × ℚ)
  | [] => [x]
  | y :: ys => if x.2 < y.2 then y :: insertDesc x ys else x :: y :: ys

/-- `Object.entries(totals).sort((a, b) => b[1] - a[1])`: a stable sort by
descending total. -/
def sortDesc : List (String × ℚ) → List (String × ℚ)
  | [] => []
  | x :: xs => insertDesc x (sortDesc xs)

/-- The entries of the `totals` object built by the top-seller handler:
for every series column in order, the sum over all normalized rows of
`r[c] || 0`. -/
def topTotals (nd : Normalized) : List (String × ℚ) :=
  nd.seriesCols.map (fun c => (c, (nd.parsed.map (fun r => getOrZero r.values c)).sum))

/-- The `POST /analytics/top-seller` handler.  A throw inside the
normalizer is a crash; so is the `top[0]` read when the sorted entry list
of the totals object is empty (reading property 0 of `undefined`
throws). -/
def topSellerHandler (np : String → NumVal) (dp : String → Option Int)
    (store : Store) (fileId : String) : HResult (String × ℚ) :=
  match normalizeSalesData np dp (store fileId) with
  | .nullResult => .badRequest "invalid or missing fileId"
  | .thrown => .crash
  | .ok nd =>
    match (sortDesc (jsEntriesOrder (topTotals nd))).head? with
    | none => .crash
    | some top => .ok (top.1, top.2)

/-! ## Moving-average handler -/

/-- The moving-average value at row index i: the mean of
`values.slice(Math.max(0, i - window + 1), i + 1)`.  Since the window is a
natural number, `Math.max(0, i - window + 1)` is the truncated subtraction
`i + 1 - window`. -/
def movingAvgAt (values : List ℚ) (window i : ℕ) : ℚ :=
  let start := i + 1 - window
  let slice := (values.drop start).take (i + 1 - start)
  slice.sum / slice.length

/-- The `ma` column of the moving-average response: one value per row. -/
def movingAvg (values : List ℚ) (window : ℕ) : List ℚ :=
  (List.range values.length).map (movingAvgAt values window)

/-- The `POST /analytics/moving-average` handler.  The payload is the
echoed product and window plus the list of `(index, date, ma)` entries.
A missing `window` field defaults to 3. -/
def movingAverageHandler (np : String → NumVal) (dp : String → Option Int)
    (store : Store) (fileId product : String) (window : Option ℕ) :
    HResult (String × ℕ × List (ℕ × Int × ℚ)) :=
  match normalizeSalesData np dp (store fileId) with
  | .nullResult => .badRequest "invalid or missing fileId"
  | .thrown => .crash
  | .ok nd =>
    if product ∈ nd.seriesCols then
      let w := window.getD 3
      let values := seriesVals nd product
      .ok (product, w, (List.range values.length).map
        (fun i => (i, (nd.parsed.getD i default).date, movingAvgAt values w i)))
    else .badRequest "product not found"

/-! ## Forecast handler -/

/-- The regression-and-prediction core of the forecast handler, on the
extracted series: x is the zero-based row index, slope and intercept are
ordinary least squares with slope 0 when the denominator is 0, and the
result carries slope and intercept rounded to 4 decimals plus
`months` predictions `(idx, round2(intercept + slope * idx))` at
`idx = n, ..., n + months - 1`. -/
def forecastCalc (y : List ℚ) (months : ℕ) : ℚ × ℚ × List (ℕ × ℚ) :=
  let n := y.length
  let X := List.range n
  let xMean := ((X.map (fun (i : ℕ) => (i : ℚ))).sum) / n
  let yMean := y.sum / n
  let num := ((X.zip y).map (fun p => ((p.1 : ℚ) - xMean) * (p.2 - yMean))).sum
  let den := (X.map (fun (xi : ℕ) => ((xi : ℚ) - xMean) ^ 2)).sum
  let slope := if den = 0 then 0 else num / den
  let intercept := yMean - slope * xMean
  (round4q slope, round4q intercept,
    (List.range months).map (fun m =>
      (n + m, round2q (intercept + slope * (n + m)))))

/-- The `POST /analytics/forecast` handler.  The payload is the echoed
product, the rounded slope and intercept, and the prediction list.  A
missing `monthsForecast` field defaults to 3. -/
def forecastHandler (np : String → NumVal) (dp : String → Option Int)
    (store : Store) (fileId product : String) (monthsForecast : Option ℕ) :
    HResult (String × ℚ × ℚ × List (ℕ × ℚ)) :=
  match normalizeSalesData np dp (store fileId) with
  | .nullResult => .badRequest "invalid or missing fileId"
  | .thrown => .crash
  | .ok nd =>
    if product ∈ nd.seriesCols then
      let r := forecastCalc (seriesVals nd product) (monthsForecast.getD 3)
      .ok (product, r)
    else .badRequest "product not found"

/-! ## Correlation handler -/

/-- The `pearson(x, y)` helper of the correlation handler, with `Math.sqrt`
modelled by `Real.sqrt`.  As in the source, `n` is the length of the first
argument; the handler only calls it on two series of the same length
(both extracted from the same normalized rows), where the indexed access
`y[i]` for `i` below the length of `x` is total and is modelled by `zip`. -/
noncomputable def pearson (x y : List ℚ) : ℝ :=
  let n : ℝ := x.length
  let mx := ((x.map (fun (a : ℚ) => (a : ℝ))).sum) / n
  let my := ((y.map (fun (a : ℚ) => (a : ℝ))).sum) / n
  let num := ((x.zip y).map (fun p => ((p.1 : ℝ) - mx) * ((p.2 : ℝ) - my))).sum
  let denx := Real.sqrt ((x.map (fun (xi : ℚ) => ((xi : ℝ) - mx) ^ 2)).sum)
  let deny := Real.sqrt ((y.map (fun (yi : ℚ) => ((yi : ℝ) - my) ^ 2)).sum)
  let den := denx * deny
  if den = 0 then 0 else num / den

/-- The nested `matrix` object of the correlation handler: for every
ordered pair of series columns, the Pearson coefficient of the two
extracted series, rounded to 4 decimals. -/
noncomputable def correlationMatrix (nd : Normalized) :
    List (String × List (String × ℝ)) :=
  nd.seriesCols.map (fun ci =>
    (ci, nd.seriesCols.map (fun cj =>
      (cj, round4r (pearson (seriesVals nd ci) (seriesVals nd cj))))))

/-- Property access on a JSON-object model (`matrix[a]`, `matrix[a][b]`). -/
def objGet {α : Type} (m : List (String × α)) (a : String) : Option α :=
  (m.find? (fun p => p.1 == a)).map Prod.snd

/-- The entry `matrix[a][b]` of the correlation matrix. -/
noncomputable def matrixEntry (nd : Normalized) (a b : String) : Option ℝ :=
  (objGet (correlationMatrix nd) a).bind (fun row => objGet row b)

/-- The `POST /analytics/correlation` handler. -/
noncomputable def correlationHandler (np : String → NumVal)
    (dp : String → Option Int) (store : Store) (fileId : String) :
    HResult (List (String × List (String × ℝ))) :=
  match normalizeSalesData np dp (store fileId) with
  | .nullResult => .badRequest "invalid or missing fileId"
  | .thrown => .crash
  | .ok nd => .ok (correlationMatrix nd)

/-! ## Concrete instances used by witnesses and counterexamples -/

/-- A host numeric parser for the concrete datasets below: the numerals
that appear in the sample files parse to themselves, everything else is
non-numeric (NaN), as `Number` behaves on such strings. -/
def np1 : String → NumVal := fun s =>
  if s = "10" then .num 10 else if s = "20" then .num 20
  else if s = "30" then .num 30 else if s = "40" then .num 40
  else if s = "5" then .num 5 else if s = "15" then .num 15
  else if s = "1" then .num 1 else .nan

/-- A host date parser for the concrete datasets below: three month names
parse, everything else is an Invalid Date, as `new Date` behaves. -/
def dp1 : String → Option Int := fun s =>
  if s = "Jan" then some 0 else if s = "Feb" then some 31
  else if s = "Mar" then some 59 else none

/-- The sample dataset of the spec: columns Month, A, B and rows
(Jan,10,5), (Feb,20,15), (Mar,30,10). -/
def rows1 : List RawRow :=
  [[("Month", "Jan"), ("A", "10"), ("B", "5")],
   [("Month", "Feb"), ("A", "20"), ("B", "15")],
   [("Month", "Mar"), ("A", "30"), ("B", "10")]]

/-- A store holding the sample dataset under id f. -/
def store1 : Store := fun fid => if fid = "f" then some rows1 else none

/-- The sample dataset of the spec after normalization with the host
parsers np1 and dp1. -/
def nd1 : Normalized :=
  { dateCol := some "Month", seriesCols := ["A", "B"],
    parsed := [⟨0, [("A", .num 10), ("B", .num 5)]⟩,
               ⟨31, [("A", .num 20), ("B", .num 15)]⟩,
               ⟨59, [("A", .num 30), ("B", .num 10)]⟩] }

/-- A dataset whose second column is named `date`: normalization clobbers
the per-row date field and throws. -/
def rowsD : List RawRow :=
  [[("Month", "Jan"), ("date", "5"), ("A", "10")]]

/-- A store holding the `date`-collision dataset under id d. -/
def storeD : Store := fun fid => if fid = "d" then some rowsD else none

/-- A dataset with an integer-like column name: insertion order is
m, B, 2, but `Object.keys` enumerates the array-index key 2 first, so the
program takes 2 as the date column. -/
def rows3 : List RawRow :=
  [[("m", "Jan"), ("B", "5"), ("2", "5")]]

/-- A store holding the integer-named-column dataset under id h. -/
def store3 : Store := fun fid => if fid = "h" then some rows3 else none

/-! ## Normalizer outcome lemmas -/

/-- Helper: looking up a key in an association list built by tabulating a
function over a key list returns the function's value at that key. -/
theorem objGet_map_self {α : Type} (f : String → α) :
    ∀ (l : List String) (a : String), a ∈ l →
      objGet (l.map (fun c => (c, f c))) a = some (f a) := by
  intro l
  induction l with
  | nil => intro a ha; cases ha
  | cons c cs ih =>
    intro a ha
    by_cases hc : c = a
    · subst hc
      simp [objGet, List.find?]
    · have : a ∈ cs := by
        cases ha with
        | head => exact absurd rfl hc
        | tail _ h => exact h
      have hne : (c == a) = false := by
        simp [hc]
      simpa [objGet, List.find?, hne] using ih a this

/-- Helper: without a series column named `date`, a row's `out.date` stays
the parsed `Date` object. -/
theorem toPRow_dateObj (np : String → NumVal) (dp : String → Option Int)
    (dateCol : Option String) (seriesCols : List String) (r : RawRow)
    (h : "date" ∉ seriesCols) :
    (toPRow np dp dateCol seriesCols r).date =
      OutDate.dateObj (rowDate dp dateCol r) := by
  simp [toPRow, h]

/-- Helper: with a series column named `date`, a row's `out.date` is
clobbered by that column's coerced number. -/
theorem toPRow_clobber (np : String → NumVal) (dp : String → Option Int)
    (dateCol : Option String) (seriesCols : List String) (r : RawRow)
    (h : "date" ∈ seriesCols) :
    (toPRow np dp dateCol seriesCols r).date =
      OutDate.numClobber (cellNumber np (lookupCell r "date")) := by
  simp [toPRow, h]

/-- Helper: when every row's date field is a `Date` object, the filter
returns the rows with a valid timestamp. -/
theorem filterRows_ok_of_dates (l : List PRow)
    (h : ∀ p ∈ l, ∃ t, p.date = OutDate.dateObj t) :
    filterRows l = .ok (l.filter dateOk) := by
  induction l with
  | nil => rfl
  | cons p ps ih =>
    obtain ⟨t, ht⟩ := h p (List.mem_cons_self p ps)
    have hps := ih (fun q hq => h q (List.mem_cons_of_mem p hq))
    simp only [filterRows, ht, hps, List.filter_cons, dateOk]

/-- Helper: a row whose date field was clobbered makes the filter throw. -/
theorem filterRows_error_of_clobber (l : List PRow) (p : PRow) (v : NumVal)
    (hp : p ∈ l) (hv : p.date = OutDate.numClobber v) :
    filterRows l = .error () := by
  induction l with
  | nil => cases hp
  | cons q qs ih =>
    cases List.mem_cons.mp hp with
    | inl h =>
      subst h
      simp only [filterRows, hv]
    | inr h =>
      have hqs := ih h
      simp only [filterRows, hqs]
      cases hq : q.date <;> simp

/-- Helper: on a non-empty input with a series column named `date`, the
normalizer throws. -/
theorem normalize_thrown_of_date (np : String → NumVal)
    (dp : String → Option Int) (r0 : RawRow) (rest : List RawRow)
    (hdate : "date" ∈ (jsKeyOrder (r0.map Prod.fst)).tail) :
    normalizeSalesData np dp (some (r0 :: rest)) = .thrown := by
  simp only [normalizeSalesData]
  rw [filterRows_error_of_clobber _
    (toPRow np dp (jsKeyOrder (r0.map Prod.fst)).head?
      (jsKeyOrder (r0.map Prod.fst)).tail r0)
    (cellNumber np (lookupCell r0 "date"))
    (List.mem_map_of_mem _ (List.mem_cons_self r0 rest))
    (toPRow_clobber np dp _ _ r0 hdate)]

/-- Helper: on a non-empty input without a series column named `date`, the
normalizer succeeds with the filtered rows. -/
theorem normalize_ok_of_noDate (np : String → NumVal)
    (dp : String → Option Int) (r0 : RawRow) (rest : List RawRow)
    (hdate : "date" ∉ (jsKeyOrder (r0.map Prod.fst)).tail) :
    normalizeSalesData np dp (some (r0 :: rest)) =
      .ok { dateCol := (jsKeyOrder (r0.map Prod.fst)).head?
            seriesCols := (jsKeyOrder (r0.map Prod.fst)).tail
            parsed := (((r0 :: rest).map (toPRow np dp
                (jsKeyOrder (r0.map Prod.fst)).head?
                (jsKeyOrder (r0.map Prod.fst)).tail)).filter dateOk).map
              finishRow } := by
  have hdates : ∀ p ∈ (r0 :: rest).map (toPRow np dp
      (jsKeyOrder (r0.map Prod.fst)).head?
      (jsKeyOrder (r0.map Prod.fst)).tail), ∃ t, p.date = OutDate.dateObj t := by
    intro p hp
    rw [List.mem_map] at hp
    obtain ⟨r, _, rfl⟩ := hp
    exact ⟨rowDate dp _ r, toPRow_dateObj np dp _ _ r hdate⟩
  simp only [normalizeSalesData]
  rw [filterRows_ok_of_dates _ hdates]

/-! ## C7: outcomes of the normalizer -/

/-- Counterexample to C7 as stated: the non-empty `date`-collision dataset
makes the normalizer throw a TypeError instead of returning a non-null
result, and on a dataset with first-row keys m, 7 (in insertion order) the
date column is the array-index key 7, not the first inserted key m. -/
theorem normalize_nonnull_counterexample :
    normalizeSalesData np1 dp1 (some rowsD) = .thrown ∧
    (∃ nd : Normalized,
      normalizeSalesData np1 dp1 (some [[("m", "Jan"), ("7", "1")]]) =
        .ok nd ∧ nd.dateCol = some "7") ∧
    some "7" ≠ some "m" := by
  refine ⟨by decide, ⟨⟨some "7", ["m"], []⟩, by decide, rfl⟩, by decide⟩

/-- C7 amended: the normalizer returns null exactly on an absent or empty
row list; on a non-empty input it throws a TypeError exactly when the
series columns include one named `date`, and otherwise returns a result
whose column names are the first row's keys in the JS own-property
enumeration order (array-index keys first, ascending, then the rest in
insertion order — the insertion order itself whenever no key is an array
index), with the first enumerated key as date column, the remaining keys
as series columns, and an empty row sequence when every row fails date
parsing. -/
theorem normalize_outcomes (np : String → NumVal) (dp : String → Option Int) :
    (∀ o : Option (List RawRow),
      normalizeSalesData np dp o = .nullResult ↔ (o = none ∨ o = some [])) ∧
    (∀ (r0 : RawRow) (rest : List RawRow),
      ("date" ∈ (jsKeyOrder (r0.map Prod.fst)).tail →
        normalizeSalesData np dp (some (r0 :: rest)) = .thrown) ∧
      ("date" ∉ (jsKeyOrder (r0.map Prod.fst)).tail →
        ∃ nd : Normalized,
          normalizeSalesData np dp (some (r0 :: rest)) = .ok nd ∧
          nd.dateCol = (jsKeyOrder (r0.map Prod.fst)).head? ∧
          nd.seriesCols = (jsKeyOrder (r0.map Prod.fst)).tail ∧
          ((∀ r ∈ r0 :: rest,
              rowDate dp (jsKeyOrder (r0.map Prod.fst)).head? r = none) →
            nd.parsed = []))) ∧
    (∀ keys : List String, (∀ s ∈ keys, arrayIndex? s = none) →
      jsKeyOrder keys = keys) := by
  refine ⟨?_, ?_, ?_⟩
  · intro o
    match o with
    | none => simp [normalizeSalesData]
    | some [] => simp [normalizeSalesData]
    | some (r0 :: rest) =>
      simp only [normalizeSalesData]
      cases hf : filterRows ((r0 :: rest).map (toPRow np dp
          (jsKeyOrder (r0.map Prod.fst)).head?
          (jsKeyOrder (r0.map Prod.fst)).tail)) <;> simp
  · intro r0 rest
    refine ⟨normalize_thrown_of_date np dp r0 rest, ?_⟩
    intro hdate
    refine ⟨_, normalize_ok_of_noDate np dp r0 rest hdate, rfl, rfl, ?_⟩
    intro hall
    show ((((r0 :: rest).map (toPRow np dp
        (jsKeyOrder (r0.map Prod.fst)).head?
        (jsKeyOrder (r0.map Prod.fst)).tail)).filter dateOk).map finishRow) = []
    rw [List.map_eq_nil_iff, List.filter_eq_nil_iff]
    intro p hp
    rw [List.mem_map] at hp
    obtain ⟨r, hr, rfl⟩ := hp
    rw [dateOk, toPRow_dateObj np dp _ _ r hdate, hall r hr]
    decide
  · intro keys h
    rw [jsKeyOrder]
    have h1 : keys.filter (fun s => (arrayIndex? s).isSome) = [] := by
      rw [List.filter_eq_nil_iff]
      intro s hs
      rw [h s hs]
      decide
    have h2 : keys.filter (fun s => (arrayIndex? s).isNone) = keys := by
      rw [List.filter_eq_self]
      intro s hs
      rw [h s hs]
      rfl
    rw [h1, h2]
    rfl

/-- Witness for C7 at the sample dataset, the collision dataset, and an
all-dates-invalid dataset. -/
theorem normalize_outcomes_witness :
    normalizeSalesData np1 dp1 (some []) = .nullResult ∧
    normalizeSalesData np1 dp1 (some rowsD) = .thrown ∧
    (∃ nd : Normalized,
      normalizeSalesData np1 dp1 (some rows1) = .ok nd ∧
      nd.dateCol = some "Month" ∧ nd.seriesCols = ["A", "B"]) ∧
    (∃ nd : Normalized,
      normalizeSalesData np1 dp1 (some [[("Month", "???"), ("A", "10")]]) =
        .ok nd ∧ nd.parsed = []) ∧
    jsKeyOrder ["Month", "A", "B"] = ["Month", "A", "B"] := by
  obtain ⟨hnull, hcases, hkeys⟩ := normalize_outcomes np1 dp1
  refine ⟨(hnull (some [])).mpr (Or.inr rfl), ?_, ?_, ?_, ?_⟩
  · exact (hcases [("Month", "Jan"), ("date", "5"), ("A", "10")] []).1
      (by decide)
  · obtain ⟨nd, h1, h2, h3, _⟩ := (hcases [("Month", "Jan"),
      ("A", "10"), ("B", "5")] (rows1.drop 1)).2 (by decide)
    exact ⟨nd, h1, by rw [h2]; decide, by rw [h3]; decide⟩
  · obtain ⟨nd, h1, _, _, h4⟩ := (hcases [("Month", "???"),
      ("A", "10")] []).2 (by decide)
    exact ⟨nd, h1, h4 (by decide)⟩
  · exact hkeys ["Month", "A", "B"] (by decide)

/-! ## C6: row count and order of the normalized output -/

/-- Counterexample to C6 as stated: on the non-empty `date`-collision
dataset the normalizer throws and produces no output at all, so no output
row count exists. -/
theorem normalize_count_counterexample :
    normalizeSalesData np1 dp1 (some rowsD) = .thrown ∧
    ¬ ∃ nd : Normalized, normalizeSalesData np1 dp1 (some rowsD) = .ok nd := by
  refine ⟨by decide, ?_⟩
  intro ⟨nd, h⟩
  rw [show normalizeSalesData np1 dp1 (some rowsD) = .thrown by decide] at h
  simp at h

/-- C6 amended: on a non-empty input without a series column named `date`
(a collision throws instead), the normalized row count equals the input
row count minus the number of rows whose date-column value fails date
parsing (hence is at most the input row count), and the surviving rows
are the date-valid input rows in their original relative order, each
converted by the per-row value coercion. -/
theorem normalize_count_and_order (np : String → NumVal)
    (dp : String → Option Int) (r0 : RawRow) (rest : List RawRow)
    (hdate : "date" ∉ (jsKeyOrder (r0.map Prod.fst)).tail) :
    ∃ nd : Normalized,
      normalizeSalesData np dp (some (r0 :: rest)) = .ok nd ∧
      nd.parsed = ((r0 :: rest).filter
          (fun r => (rowDate dp (jsKeyOrder (r0.map Prod.fst)).head? r).isSome)).map
        (fun r => finishRow (toPRow np dp (jsKeyOrder (r0.map Prod.fst)).head?
          (jsKeyOrder (r0.map Prod.fst)).tail r)) ∧
      nd.parsed.length = (r0 :: rest).length -
        ((r0 :: rest).countP
          (fun r => (rowDate dp (jsKeyOrder (r0.map Prod.fst)).head? r).isNone)) ∧
      nd.parsed.length ≤ (r0 :: rest).length := by
  have hconv : ((r0 :: rest).map (toPRow np dp
        (jsKeyOrder (r0.map Prod.fst)).head?
        (jsKeyOrder (r0.map Prod.fst)).tail)).filter dateOk =
      ((r0 :: rest).filter
        (fun r => (rowDate dp (jsKeyOrder (r0.map Prod.fst)).head? r).isSome)).map
        (toPRow np dp (jsKeyOrder (r0.map Prod.fst)).head?
          (jsKeyOrder (r0.map Prod.fst)).tail) := by
    rw [List.filter_map]
    apply congrArg
    apply List.filter_congr
    intro r _
    show dateOk (toPRow np dp _ _ r) = _
    rw [dateOk, toPRow_dateObj np dp _ _ r hdate]
  refine ⟨_, normalize_ok_of_noDate np dp r0 rest hdate, ?_, ?_, ?_⟩
  · show ((((r0 :: rest).map (toPRow np dp
        (jsKeyOrder (r0.map Prod.fst)).head?
        (jsKeyOrder (r0.map Prod.fst)).tail)).filter dateOk).map finishRow) = _
    rw [hconv, List.map_map]
    rfl
  · show ((((r0 :: rest).map (toPRow np dp
        (jsKeyOrder (r0.map Prod.fst)).head?
        (jsKeyOrder (r0.map Prod.fst)).tail)).filter dateOk).map finishRow).length = _
    rw [hconv, List.length_map, List.length_map, ← List.countP_eq_length_filter]
    have hsplit := List.length_eq_countP_add_countP
      (p := fun r => (rowDate dp (jsKeyOrder (r0.map Prod.fst)).head? r).isSome)
      (l := r0 :: rest)
    have hneg : (r0 :: rest).countP
        (fun r => decide ¬((rowDate dp
          (jsKeyOrder (r0.map Prod.fst)).head? r).isSome = true)) =
        (r0 :: rest).countP
          (fun r => (rowDate dp (jsKeyOrder (r0.map Prod.fst)).head? r).isNone) := by
      apply List.countP_congr
      intro r _
      cases rowDate dp (jsKeyOrder (r0.map Prod.fst)).head? r <;> simp
    omega
  · show ((((r0 :: rest).map (toPRow np dp
        (jsKeyOrder (r0.map Prod.fst)).head?
        (jsKeyOrder (r0.map Prod.fst)).tail)).filter dateOk).map finishRow).length ≤ _
    rw [List.length_map]
    exact (List.length_filter_le _ _).trans (by rw [List.length_map])

/-- Witness for amended C6 at a dataset in which the middle row has an
unparsable date: the output keeps rows one and three, in order. -/
theorem normalize_count_and_order_witness :
    ∃ nd : Normalized,
      normalizeSalesData np1 dp1 (some [[("Month", "Jan"), ("A", "10")],
        [("Month", "nope"), ("A", "20")], [("Month", "Mar"), ("A", "30")]]) =
        .ok nd ∧
      nd.parsed = [⟨0, [("A", NumVal.num 10)]⟩, ⟨59, [("A", NumVal.num 30)]⟩] ∧
      nd.parsed.length = 3 - 1 ∧
      nd.parsed.length ≤ 3 := by
  obtain ⟨nd, h1, h2, h3, h4⟩ := normalize_count_and_order np1 dp1
    [("Month", "Jan"), ("A", "10")]
    [[("Month", "nope"), ("A", "20")], [("Month", "Mar"), ("A", "30")]]
    (by decide)
  refine ⟨nd, h1, ?_, ?_, ?_⟩
  · rw [h2]; decide
  · rw [h3]; decide
  · exact h4.trans (by decide)

/-! ## C5: value coercion performed by the normalizer -/

/-- Counterexample to C5 as stated: with a raw row whose series value is
the non-empty non-numeric string oops (numeric coercion NaN), the
normalizer stores NaN for that column, not 0. -/
theorem normalize_nonNumeric_value_counterexample :
    np1 "oops" = NumVal.nan ∧
    (∃ nd : Normalized,
      normalizeSalesData np1 dp1 (some [[("m", "Jan"), ("A", "oops")]]) =
        .ok nd ∧
      objGet (nd.parsed.getD 0 default).values "A" = some NumVal.nan) ∧
    some NumVal.nan ≠ some (NumVal.num 0) := by
  refine ⟨rfl, ⟨⟨some "m", ["A"], [⟨0, [("A", NumVal.nan)]⟩]⟩,
    by decide, by decide⟩, by decide⟩

/-- C5 amended: whenever the normalizer succeeds (a series column named
`date` makes it throw instead), every kept row's values mapping has
exactly the series column names as keys, and the stored value for a
series column is `Number(raw || 0)`: 0 when the raw value is absent or
the empty string, and otherwise the host numeric coercion of the raw
string — NaN (not 0) when that string is non-numeric — which every
analytics read then coerces to 0 through `|| 0`. -/
theorem normalize_values_amended (np : String → NumVal)
    (dp : String → Option Int) (r0 : RawRow) (rest : List RawRow) :
    (∀ nd : Normalized,
      normalizeSalesData np dp (some (r0 :: rest)) = .ok nd →
      (∀ row ∈ nd.parsed, row.values.map Prod.fst = nd.seriesCols) ∧
      (∀ row ∈ nd.parsed, ∃ r ∈ r0 :: rest,
        row.values = nd.seriesCols.map
          (fun c => (c, cellNumber np (lookupCell r c))) ∧
        ∀ c ∈ nd.seriesCols, objGet row.values c =
          some (cellNumber np (lookupCell r c)))) ∧
    cellNumber np none = NumVal.num 0 ∧
    cellNumber np (some "") = NumVal.num 0 ∧
    (∀ s : String, s ≠ "" → cellNumber np (some s) = np s) ∧
    NumVal.nan.orZero.toRat = 0 ∧
    ("date" ∈ (jsKeyOrder (r0.map Prod.fst)).tail →
      normalizeSalesData np dp (some (r0 :: rest)) = .thrown) := by
  refine ⟨?_, rfl, rfl, ?_, rfl, normalize_thrown_of_date np dp r0 rest⟩
  · intro nd hnd
    by_cases hdate : "date" ∈ (jsKeyOrder (r0.map Prod.fst)).tail
    · rw [normalize_thrown_of_date np dp r0 rest hdate] at hnd
      simp at hnd
    · rw [normalize_ok_of_noDate np dp r0 rest hdate] at hnd
      simp only [NormResult.ok.injEq] at hnd
      subst hnd
      constructor
      · intro row hrow
        rw [List.mem_map] at hrow
        obtain ⟨p, hp, rfl⟩ := hrow
        rw [List.mem_filter] at hp
        rw [List.mem_map] at hp
        obtain ⟨⟨r, _, rfl⟩, _⟩ := hp
        simp only [finishRow, toPRow, List.map_map]
        have hcollapse : (Prod.fst ∘ fun c =>
            (c, cellNumber np (lookupCell r c))) = (id : String → String) := rfl
        rw [hcollapse, List.map_id]
      · intro row hrow
        rw [List.mem_map] at hrow
        obtain ⟨p, hp, rfl⟩ := hrow
        rw [List.mem_filter] at hp
        rw [List.mem_map] at hp
        obtain ⟨⟨r, hr, rfl⟩, _⟩ := hp
        refine ⟨r, hr, rfl, ?_⟩
        intro c hc
        exact objGet_map_self (fun c => cellNumber np (lookupCell r c)) _ c hc
  · intro s hs
    simp [cellNumber, hs]

/-- Witness for the amended C5 at a dataset holding an absent value, an
empty value and a non-numeric value. -/
theorem normalize_values_amended_witness :
    (∃ nd : Normalized,
      normalizeSalesData np1 dp1
          (some [[("m", "Jan"), ("A", "10"), ("B", "")],
                 [("m", "Feb"), ("A", "oops")]]) = .ok nd ∧
      (∀ row ∈ nd.parsed, row.values.map Prod.fst = nd.seriesCols)) ∧
    cellNumber np1 none = NumVal.num 0 ∧
    cellNumber np1 (some "") = NumVal.num 0 ∧
    cellNumber np1 (some "oops") = np1 "oops" ∧
    NumVal.nan.orZero.toRat = 0 := by
  obtain ⟨hok, h4, h5, h6, h7, _⟩ := normalize_values_amended np1 dp1
    [("m", "Jan"), ("A", "10"), ("B", "")] [[("m", "Feb"), ("A", "oops")]]
  refine ⟨⟨⟨some "m", ["A", "B"],
    [⟨0, [("A", NumVal.num 10), ("B", NumVal.num 0)]⟩,
     ⟨31, [("A", NumVal.nan), ("B", NumVal.num 0)]⟩]⟩, by decide, ?_⟩,
    h4, h5, h6 "oops" (by decide), h7⟩
  exact (hok _ (by decide)).1

/-! ## C3: moving average -/

/-- Helper: a list sum over `List.range` is the matching `Finset.range`
sum. -/
theorem sum_map_range (g : ℕ → ℚ) (n : ℕ) :
    ((List.range n).map g).sum = ∑ i ∈ Finset.range n, g i := by
  induction n with
  | zero => simp
  | succ n ih =>
    rw [List.range_succ, List.map_append, List.sum_append,
      Finset.sum_range_succ, ih]
    simp

/-- Helper: `values.slice(start, start + cnt)` is the tabulation of the
indexed reads over that index range. -/
theorem slice_eq_map_range' (values : List ℚ) (start cnt : ℕ)
    (h : start + cnt ≤ values.length) :
    (values.drop start).take cnt =
      (List.range' start cnt).map (fun j => values.getD j 0) := by
  apply List.ext_getElem
  · simp only [List.length_take, List.length_drop, List.length_map,
      List.length_range']
    omega
  · intro k h1 h2
    simp only [List.getElem_take, List.getElem_drop, List.getElem_map,
      List.getElem_range']
    have hk : k < cnt := by
      simpa using h2
    have h1k : start + 1 * k = start + k := by omega
    rw [h1k, List.getD_eq_getElem values 0 (by omega)]

/-- Helper: the sum of `values.slice(start, start + cnt)` is the sum of
the indexed reads over the matching interval. -/
theorem slice_sum (values : List ℚ) (start cnt : ℕ)
    (h : start + cnt ≤ values.length) :
    ((values.drop start).take cnt).sum =
      ∑ j ∈ Finset.Ico start (start + cnt), values.getD j 0 := by
  rw [slice_eq_map_range' values start cnt h, List.range'_eq_map_range,
    List.map_map, sum_map_range, Finset.sum_Ico_eq_sum_range]
  simp [Function.comp]

/-- Counterexample to C3 as stated: on the ingested `date`-collision
dataset the moving-average request crashes inside the normalizer before
producing any entries, so the claimed per-row entries are not returned. -/
theorem movingAverage_crash_counterexample :
    movingAverageHandler np1 dp1 storeD "d" "A" (some 3) = .crash ∧
    ¬ ∃ a : String × ℕ × List (ℕ × Int × ℚ),
      movingAverageHandler np1 dp1 storeD "d" "A" (some 3) = .ok a := by
  refine ⟨by decide, ?_⟩
  intro ⟨a, h⟩
  rw [show movingAverageHandler np1 dp1 storeD "d" "A" (some 3) = .crash
    by decide] at h
  simp at h

/-- C3 amended: for a window of at least 1 and a dataset that normalizes
successfully (a series column named `date` makes the request crash
instead), the moving average has one entry per normalized row; the entry
at row index i averages the series values over the index interval from
`max 0 (i - window + 1)` (which the code computes as the truncated
`i + 1 - window`) to i inclusive, a trailing window whose length is
`min window (i + 1)`; with window 1 the averages are the raw series
values unchanged; and the window defaults to 3.  The handler equation is
stated under the `finiteValues` hypothesis, where the rational reading of
the stored values is exact. -/
theorem movingAvg_spec (values : List ℚ) (window : ℕ) (hw : 1 ≤ window) :
    (movingAvg values window).length = values.length ∧
    (∀ i, i < values.length →
      ((i + 1 - window : ℕ) : ℤ) = max 0 ((i : ℤ) - window + 1) ∧
      ((values.drop (i + 1 - window)).take ((i + 1) - (i + 1 - window))).length =
        min window (i + 1) ∧
      (movingAvg values window).getD i 0 =
        (∑ j ∈ Finset.Icc (i + 1 - window) i, values.getD j 0) /
          ((min window (i + 1) : ℕ) : ℚ)) ∧
    movingAvg values 1 = values ∧
    (∀ (np : String → NumVal) (dp : String → Option Int) (store : Store)
      (fileId product : String) (nd : Normalized),
      normalizeSalesData np dp (store fileId) = .ok nd →
      product ∈ nd.seriesCols → finiteValues nd →
      (seriesVals nd product).length = nd.parsed.length ∧
      movingAverageHandler np dp store fileId product (some window) =
        .ok (product, window,
          (List.range nd.parsed.length).map (fun i =>
            (i, (nd.parsed.getD i default).date,
              movingAvgAt (seriesVals nd product) window i)))) ∧
    (∀ (np : String → NumVal) (dp : String → Option Int) (store : Store)
      (fileId product : String),
      movingAverageHandler np dp store fileId product none =
        movingAverageHandler np dp store fileId product (some 3)) := by
  refine ⟨by simp [movingAvg], ?_, ?_, ?_, ?_⟩
  · intro i hi
    have hstart : (i + 1 - window) + ((i + 1) - (i + 1 - window)) = i + 1 := by
      omega
    have hlen : (i + 1) - (i + 1 - window) = min window (i + 1) := by
      omega
    have hslicelen : ((values.drop (i + 1 - window)).take
        ((i + 1) - (i + 1 - window))).length = min window (i + 1) := by
      simp only [List.length_take, List.length_drop]
      omega
    refine ⟨by omega, hslicelen, ?_⟩
    have hgetd : (movingAvg values window).getD i 0 =
        movingAvgAt values window i := by
      rw [movingAvg, List.getD_eq_getElem _ _ (by simpa using hi)]
      simp
    rw [hgetd]
    show ((values.drop (i + 1 - window)).take ((i + 1) - (i + 1 - window))).sum /
        (((values.drop (i + 1 - window)).take
          ((i + 1) - (i + 1 - window))).length : ℚ) = _
    rw [hslicelen, slice_sum values (i + 1 - window) ((i + 1) - (i + 1 - window))
      (by omega)]
    have hico : Finset.Ico (i + 1 - window) ((i + 1 - window) +
        ((i + 1) - (i + 1 - window))) = Finset.Icc (i + 1 - window) i := by
      rw [hstart]
      exact Nat.Ico_succ_right _ _
    rw [hico]
  · apply List.ext_getElem
    · simp [movingAvg]
    · intro i h1 h2
      simp only [movingAvg, List.getElem_map, List.getElem_range]
      show ((values.drop (i + 1 - 1)).take ((i + 1) - (i + 1 - 1))).sum /
          (((values.drop (i + 1 - 1)).take ((i + 1) - (i + 1 - 1))).length : ℚ) = _
      have hstart1 : i + 1 - 1 = i := by omega
      rw [hstart1]
      have hdrop : values.drop i = values[i] :: values.drop (i + 1) :=
        List.drop_eq_getElem_cons h2
      have h11 : i + 1 - i = 1 := by omega
      rw [h11, hdrop]
      show ([values[i]] : List ℚ).sum / (([values[i]] : List ℚ).length : ℚ) =
        values[i]
      simp
  · intro np dp store fileId product nd hnd hp _
    have hserlen : (seriesVals nd product).length = nd.parsed.length := by
      rw [seriesVals, List.length_map]
    refine ⟨hserlen, ?_⟩
    unfold movingAverageHandler
    simp only [hnd, Option.getD_some, hserlen]
    rw [if_pos hp]
  · intro np dp store fileId product
    rfl

/-- Witness for amended C3 at values [1, 2, 3, 4, 5] and window 3, and at
the sample dataset for the handler equation. -/
theorem movingAvg_spec_witness :
    (movingAvg [1, 2, 3, 4, 5] 3).length = 5 ∧
    ((3 + 1 - 3 : ℕ) : ℤ) = max 0 ((3 : ℤ) - 3 + 1) ∧
    (movingAvg [1, 2, 3, 4, 5] 3).getD 3 0 =
      (∑ j ∈ Finset.Icc 1 3, [(1 : ℚ), 2, 3, 4, 5].getD j 0) / (3 : ℚ) ∧
    movingAvg [1, 2, 3, 4, 5] 1 = [1, 2, 3, 4, 5] ∧
    movingAverageHandler np1 dp1 store1 "f" "A" (some 3) =
      .ok ("A", 3, (List.range nd1.parsed.length).map (fun i =>
        (i, (nd1.parsed.getD i default).date,
          movingAvgAt (seriesVals nd1 "A") 3 i))) := by
  obtain ⟨h1, h2, h3, h4, h5⟩ := movingAvg_spec [1, 2, 3, 4, 5] 3 (by decide)
  obtain ⟨h6, _, h7⟩ := h2 3 (by decide)
  refine ⟨h1, h6, by simpa using h7, h3, ?_⟩
  exact (h4 np1 dp1 store1 "f" "A" nd1 (by decide) (by decide) (by decide)).2

/-! ## C4: top seller -/

/-- Helper: the head of an insertion step is whichever of the inserted
entry and the previous head has the larger total, the previous head
winning only when strictly larger. -/
theorem insertDesc_head? (x : String × ℚ) (l : List (String × ℚ)) :
    (insertDesc x l).head? = some (match l.head? with
      | none => x
      | some y => if x.2 < y.2 then y else x) := by
  cases l with
  | nil => rfl
  | cons y ys =>
    simp only [insertDesc, List.head?_cons]
    by_cases h : x.2 < y.2 <;> simp [h]

/-- Helper: the head of the stable descending sort of a non-empty entry
list is an entry of maximal total, and it is the first such entry: every
entry before it in the sorted list's input order has a strictly smaller
total. -/
theorem sortDesc_head_spec :
    ∀ l : List (String × ℚ), l ≠ [] →
      ∃ top pre suf, (sortDesc l).head? = some top ∧
        l = pre ++ top :: suf ∧
        (∀ e ∈ pre, e.2 < top.2) ∧
        (∀ e ∈ l, e.2 ≤ top.2) := by
  intro l
  induction l with
  | nil => intro h; exact absurd rfl h
  | cons x xs ih =>
    intro _
    cases hxs : xs with
    | nil =>
      refine ⟨x, [], [], ?_, rfl, ?_, ?_⟩
      · rfl
      · intro e he; cases he
      · intro e he
        rw [List.mem_singleton] at he
        rw [he]
    | cons z zs =>
      obtain ⟨top, pre, suf, h1, h2, h3, h4⟩ := ih (by rw [hxs]; simp)
      rw [← hxs]
      have hsort : sortDesc (x :: xs) = insertDesc x (sortDesc xs) := rfl
      by_cases hc : x.2 < top.2
      · refine ⟨top, x :: pre, suf, ?_, ?_, ?_, ?_⟩
        · rw [hsort, insertDesc_head?, h1]
          simp [hc]
        · rw [h2]
          rfl
        · intro e he
          cases he with
          | head => exact hc
          | tail _ h => exact h3 e h
        · intro e he
          cases he with
          | head => exact le_of_lt hc
          | tail _ h => exact h4 e h
      · refine ⟨x, [], xs, ?_, rfl, ?_, ?_⟩
        · rw [hsort, insertDesc_head?, h1]
          simp [hc]
        · intro e he; cases he
        · intro e he
          cases he with
          | head => exact le_refl _
          | tail _ h => exact le_trans (h4 e h) (not_lt.mp hc)

/-- Helper: inserting preserves the length. -/
theorem length_insertAscBy {α : Type} (key : α → ℕ) (x : α) (l : List α) :
    (insertAscBy key x l).length = l.length + 1 := by
  induction l with
  | nil => rfl
  | cons y ys ih =>
    rw [insertAscBy]
    by_cases h : key y ≤ key x <;> simp [h, ih]

/-- Helper: the ascending sort preserves the length. -/
theorem length_sortAscBy {α : Type} (key : α → ℕ) (l : List α) :
    (sortAscBy key l).length = l.length := by
  induction l with
  | nil => rfl
  | cons x xs ih =>
    rw [sortAscBy, length_insertAscBy, ih]
    rfl

/-- Helper: the `Object.entries` enumeration preserves the length. -/
theorem length_jsEntriesOrder (l : List (String × ℚ)) :
    (jsEntriesOrder l).length = l.length := by
  rw [jsEntriesOrder, List.length_append, length_sortAscBy,
    ← List.countP_eq_length_filter, ← List.countP_eq_length_filter]
  have hsplit := List.length_eq_countP_add_countP
    (p := fun p : String × ℚ => (arrayIndex? p.1).isSome) (l := l)
  have hneg : l.countP (fun p => decide ¬((arrayIndex? p.1).isSome = true)) =
      l.countP (fun p => (arrayIndex? p.1).isNone) := by
    apply List.countP_congr
    intro p _
    cases arrayIndex? p.1 <;> simp
  omega

/-- Helper: the `Object.keys` enumeration preserves the length. -/
theorem length_jsKeyOrder (keys : List String) :
    (jsKeyOrder keys).length = keys.length := by
  rw [jsKeyOrder, List.length_append, length_sortAscBy,
    ← List.countP_eq_length_filter, ← List.countP_eq_length_filter]
  have hsplit := List.length_eq_countP_add_countP
    (p := fun s => (arrayIndex? s).isSome) (l := keys)
  have hneg : keys.countP (fun s => decide ¬((arrayIndex? s).isSome = true)) =
      keys.countP (fun s => (arrayIndex? s).isNone) := by
    apply List.countP_congr
    intro s _
    cases arrayIndex? s <;> simp
  omega

/-- Counterexample to C4 as stated: on the dataset with columns m, B, 2
(in that original order) and the single row (Jan, 5, 5), the claim
prescribes date column m, series sums B = 5 and 2 = 5, and the tie broken
for B, the series column first in column order; the program instead
enumerates the array-index key 2 first, takes it as the date column (its
value Jan-less 5 fails date parsing, so no row survives), and returns m
with total 0.  On the `date`-collision dataset the handler crashes
instead of returning any entry. -/
theorem topSeller_order_counterexample :
    jsKeyOrder ["m", "B", "2"] = ["2", "m", "B"] ∧
    topSellerHandler np1 dp1 store3 "h" = .ok ("m", 0) ∧
    ("m", (0 : ℚ)) ≠ ("B", (5 : ℚ)) ∧
    topSellerHandler np1 dp1 storeD "d" = .crash := by
  exact ⟨by decide, by decide, by decide, by decide⟩

/-- C4 amended: for a dataset that normalizes successfully with at least
one series column and finite stored values, the totals object maps every
series column to the sum of its values over all normalized rows, and the
handler returns the entry with the maximal total among
`Object.entries(totals)`, breaking ties in favour of the entry that comes
first in the JS own-property enumeration order of the totals object
(array-index-like names first in ascending numeric order, then the rest
in column order — the column order itself whenever no series column is
named like an array index); on the sample dataset with columns Month, A,
B and rows (Jan,10,5), (Feb,20,15), (Mar,30,10) it returns A with total
60. -/
theorem topSeller_spec (np : String → NumVal) (dp : String → Option Int)
    (store : Store) (fileId : String) (nd : Normalized)
    (hnd : normalizeSalesData np dp (store fileId) = .ok nd)
    (hne : nd.seriesCols ≠ []) (hfin : finiteValues nd) :
    (∀ c ∈ nd.seriesCols, objGet (topTotals nd) c =
      some ((nd.parsed.map (fun r => getOrZero r.values c)).sum)) ∧
    (∃ top pre suf,
      topSellerHandler np dp store fileId = .ok (top.1, top.2) ∧
      jsEntriesOrder (topTotals nd) = pre ++ top :: suf ∧
      (∀ e ∈ pre, e.2 < top.2) ∧
      (∀ e ∈ jsEntriesOrder (topTotals nd), e.2 ≤ top.2)) ∧
    (∀ l : List (String × ℚ), (∀ p ∈ l, arrayIndex? p.1 = none) →
      jsEntriesOrder l = l) ∧
    topSellerHandler np1 dp1 store1 "f" = .ok ("A", 60) := by
  refine ⟨?_, ?_, ?_, ?_⟩
  · intro c hc
    exact objGet_map_self
      (fun c => (nd.parsed.map (fun r => getOrZero r.values c)).sum)
      nd.seriesCols c hc
  · have htotne : jsEntriesOrder (topTotals nd) ≠ [] := by
      intro hcontra
      have hlen := congrArg List.length hcontra
      rw [length_jsEntriesOrder, List.length_nil, topTotals,
        List.length_map] at hlen
      exact hne (List.length_eq_zero.mp hlen)
    obtain ⟨top, pre, suf, hhead, hsplit, hpre, hmax⟩ :=
      sortDesc_head_spec (jsEntriesOrder (topTotals nd)) htotne
    refine ⟨top, pre, suf, ?_, hsplit, hpre, hmax⟩
    unfold topSellerHandler
    simp only [hnd]
    show (match (sortDesc (jsEntriesOrder (topTotals nd))).head? with
      | none => HResult.crash
      | some top => HResult.ok (top.1, top.2)) = _
    rw [hhead]
  · intro l h
    rw [jsEntriesOrder]
    have h1 : l.filter (fun p => (arrayIndex? p.1).isSome) = [] := by
      rw [List.filter_eq_nil_iff]
      intro p hp
      rw [h p hp]
      decide
    have h2 : l.filter (fun p => (arrayIndex? p.1).isNone) = l := by
      rw [List.filter_eq_self]
      intro p hp
      rw [h p hp]
      rfl
    rw [h1, h2]
    rfl
  · have hnd1 : normalizeSalesData np1 dp1 (store1 "f") = .ok nd1 := by decide
    have hA : nd1.parsed.map (fun r => getOrZero r.values "A") =
        [10, 20, 30] := by decide
    have hB : nd1.parsed.map (fun r => getOrZero r.values "B") =
        [5, 15, 10] := by decide
    have htot : topTotals nd1 = [("A", 60), ("B", 30)] := by
      show [("A", (nd1.parsed.map (fun r => getOrZero r.values "A")).sum),
            ("B", (nd1.parsed.map (fun r => getOrZero r.values "B")).sum)] = _
      rw [hA, hB]
      norm_num
    unfold topSellerHandler
    rw [hnd1]
    show (match (sortDesc (jsEntriesOrder (topTotals nd1))).head? with
      | none => HResult.crash
      | some top => HResult.ok (top.1, top.2)) = HResult.ok ("A", 60)
    rw [htot]
    decide

/-- Witness for amended C4 at the sample dataset. -/
theorem topSeller_spec_witness :
    (∀ c ∈ nd1.seriesCols, objGet (topTotals nd1) c =
      some ((nd1.parsed.map (fun r => getOrZero r.values c)).sum)) ∧
    (∃ top pre suf,
      topSellerHandler np1 dp1 store1 "f" = .ok (top.1, top.2) ∧
      jsEntriesOrder (topTotals nd1) = pre ++ top :: suf ∧
      (∀ e ∈ pre, e.2 < top.2) ∧
      (∀ e ∈ jsEntriesOrder (topTotals nd1), e.2 ≤ top.2)) ∧
    topSellerHandler np1 dp1 store1 "f" = .ok ("A", 60) := by
  obtain ⟨h1, h2, _, h4⟩ := topSeller_spec np1 dp1 store1 "f" nd1
    (by decide) (by decide) (by decide)
  exact ⟨h1, h2, h4⟩

/-! ## C10: safety of the top-seller result extraction -/

/-- Counterexample to C10 as stated: the `date`-collision dataset's rows
have three keys, yet the top-seller request crashes inside the normalizer
instead of reaching the totals extraction and succeeding. -/
theorem topSeller_access_counterexample :
    2 ≤ ([("Month", "Jan"), ("date", "5"), ("A", "10")] : RawRow).length ∧
    topSellerHandler np1 dp1 storeD "d" = .crash ∧
    ¬ ∃ t : String × ℚ, topSellerHandler np1 dp1 storeD "d" = .ok t := by
  refine ⟨by decide, by decide, ?_⟩
  intro ⟨t, h⟩
  rw [show topSellerHandler np1 dp1 storeD "d" = .crash by decide] at h
  simp at h

/-- C10 amended: when the rows of an ingested dataset have at least two
keys and no series column is named `date` (the collision crashes in
normalization before the extraction), the first row yields at least one
series column, the sorted totals list is non-empty, and the extraction of
its first entry succeeds; on a dataset whose rows have exactly one key
the totals object is empty and the `top[0]` read of the `undefined` sort
result fails. -/
theorem topSeller_access_safety (np : String → NumVal)
    (dp : String → Option Int) (store : Store) (fileId : String)
    (r0 : RawRow) (rest : List RawRow)
    (hrows : store fileId = some (r0 :: rest)) (hkeys : 2 ≤ r0.length)
    (hdate : "date" ∉ (jsKeyOrder (r0.map Prod.fst)).tail) :
    (∃ t, topSellerHandler np dp store fileId = .ok t) ∧
    topSellerHandler np1 dp1
      (fun fid => if fid = "g" then some [[("Month", "Jan")]] else none) "g" =
      .crash := by
  constructor
  · have hnd : normalizeSalesData np dp (store fileId) =
        .ok { dateCol := (jsKeyOrder (r0.map Prod.fst)).head?
              seriesCols := (jsKeyOrder (r0.map Prod.fst)).tail
              parsed := (((r0 :: rest).map (toPRow np dp
                  (jsKeyOrder (r0.map Prod.fst)).head?
                  (jsKeyOrder (r0.map Prod.fst)).tail)).filter dateOk).map
                finishRow } := by
      rw [hrows]
      exact normalize_ok_of_noDate np dp r0 rest hdate
    have hne : (jsKeyOrder (r0.map Prod.fst)).tail ≠ [] := by
      intro h
      have hlen := congrArg List.length h
      rw [List.length_tail, length_jsKeyOrder, List.length_map,
        List.length_nil] at hlen
      omega
    have htotne : jsEntriesOrder (topTotals
        { dateCol := (jsKeyOrder (r0.map Prod.fst)).head?
          seriesCols := (jsKeyOrder (r0.map Prod.fst)).tail
          parsed := (((r0 :: rest).map (toPRow np dp
              (jsKeyOrder (r0.map Prod.fst)).head?
              (jsKeyOrder (r0.map Prod.fst)).tail)).filter dateOk).map
            finishRow }) ≠ [] := by
      intro hcontra
      have hlen := congrArg List.length hcontra
      rw [length_jsEntriesOrder, List.length_nil, topTotals,
        List.length_map] at hlen
      exact hne (List.length_eq_zero.mp hlen)
    obtain ⟨top, pre, suf, hhead, _, _, _⟩ :=
      sortDesc_head_spec _ htotne
    refine ⟨(top.1, top.2), ?_⟩
    unfold topSellerHandler
    simp only [hnd]
    show (match (sortDesc (jsEntriesOrder (topTotals _))).head? with
      | none => HResult.crash
      | some top => HResult.ok (top.1, top.2)) = _
    rw [hhead]
  · decide

/-- Witness for amended C10 at the sample store. -/
theorem topSeller_access_safety_witness :
    (∃ t, topSellerHandler np1 dp1 store1 "f" = .ok t) ∧
    topSellerHandler np1 dp1
      (fun fid => if fid = "g" then some [[("Month", "Jan")]] else none) "g" =
      .crash :=
  topSeller_access_safety np1 dp1 store1 "f"
    [("Month", "Jan"), ("A", "10"), ("B", "5")] (rows1.drop 1)
    (by decide) (by decide) (by decide)

/-! ## C8: error responses of the four analytics handlers -/

/-- Counterexample to C8 as stated: on the ingested `date`-collision
dataset, a moving-average or forecast request for an unknown series name
crashes inside the normalizer before the product check runs, instead of
answering with the 400-class not-found response. -/
theorem handlers_crash_counterexample :
    movingAverageHandler np1 dp1 storeD "d" "nosuch" (some 3) = .crash ∧
    forecastHandler np1 dp1 storeD "d" "nosuch" (some 3) = .crash ∧
    (HResult.crash : HResult (String × ℕ × List (ℕ × Int × ℚ))) ≠
      .badRequest "product not found" := by
  exact ⟨by decide, by decide, by decide⟩

/-- C8 amended: every analytics handler answers with the 400-class
invalid-input error when the requested file id is not mapped to a
non-empty ingested row list; when the dataset normalizes successfully,
the moving-average and forecast handlers answer with the 400-class
not-found error (a response, not a crash) for a series name not among the
inferred series columns; and when normalization throws (a series column
named `date`), every handler surfaces the crash instead. -/
theorem handlers_error_responses (np : String → NumVal)
    (dp : String → Option Int) (store : Store)
    (fileId product : String) (w months : Option ℕ) :
    ((store fileId = none ∨ store fileId = some []) →
      topSellerHandler np dp store fileId =
        .badRequest "invalid or missing fileId" ∧
      movingAverageHandler np dp store fileId product w =
        .badRequest "invalid or missing fileId" ∧
      correlationHandler np dp store fileId =
        .badRequest "invalid or missing fileId" ∧
      forecastHandler np dp store fileId product months =
        .badRequest "invalid or missing fileId") ∧
    (∀ nd : Normalized, normalizeSalesData np dp (store fileId) = .ok nd →
      product ∉ nd.seriesCols →
      movingAverageHandler np dp store fileId product w =
        .badRequest "product not found" ∧
      forecastHandler np dp store fileId product months =
        .badRequest "product not found") ∧
    (normalizeSalesData np dp (store fileId) = .thrown →
      topSellerHandler np dp store fileId = .crash ∧
      movingAverageHandler np dp store fileId product w = .crash ∧
      correlationHandler np dp store fileId = .crash ∧
      forecastHandler np dp store fileId product months = .crash) := by
  refine ⟨?_, ?_, ?_⟩
  · intro h
    have hnone : normalizeSalesData np dp (store fileId) = .nullResult := by
      cases h with
      | inl h => rw [h]; rfl
      | inr h => rw [h]; rfl
    refine ⟨?_, ?_, ?_, ?_⟩
    · unfold topSellerHandler
      rw [hnone]
    · unfold movingAverageHandler
      rw [hnone]
    · unfold correlationHandler
      rw [hnone]
    · unfold forecastHandler
      rw [hnone]
  · intro nd hnd hnotin
    constructor
    · unfold movingAverageHandler
      simp only [hnd]
      rw [if_neg hnotin]
    · unfold forecastHandler
      simp only [hnd]
      rw [if_neg hnotin]
  · intro hthrown
    refine ⟨?_, ?_, ?_, ?_⟩
    · unfold topSellerHandler
      rw [hthrown]
    · unfold movingAverageHandler
      rw [hthrown]
    · unfold correlationHandler
      rw [hthrown]
    · unfold forecastHandler
      rw [hthrown]

/-- Witness for amended C8 at an unknown file id, at a series name
missing from the sample dataset, and at the collision dataset. -/
theorem handlers_error_responses_witness :
    (topSellerHandler np1 dp1 store1 "nope" =
        .badRequest "invalid or missing fileId" ∧
      movingAverageHandler np1 dp1 store1 "nope" "A" none =
        .badRequest "invalid or missing fileId" ∧
      correlationHandler np1 dp1 store1 "nope" =
        .badRequest "invalid or missing fileId" ∧
      forecastHandler np1 dp1 store1 "nope" "A" none =
        .badRequest "invalid or missing fileId") ∧
    (movingAverageHandler np1 dp1 store1 "f" "C" none =
        .badRequest "product not found" ∧
      forecastHandler np1 dp1 store1 "f" "C" none =
        .badRequest "product not found") ∧
    topSellerHandler np1 dp1 storeD "d" = .crash := by
  refine ⟨(handlers_error_responses np1 dp1 store1 "nope" "A" none none).1
    (Or.inl (by decide)), ?_, ?_⟩
  · exact (handlers_error_responses np1 dp1 store1 "f" "C" none none).2.1 nd1
      (by decide) (by decide)
  · exact ((handlers_error_responses np1 dp1 storeD "d" "A" none none).2.2
      (by decide)).1

/-! ## C9: analytics requests do not mutate the dataset store

In the source no analytics handler assigns to `salesDataFiles`; its only
interaction with shared state is the read `salesDataFiles.get(fileId)`,
after which it recomputes normalization into fresh local structures.  The
state-passing embedding of each handler therefore returns the store
unchanged — also on the error and crash outcomes — and its response
factors through the single read. -/

/-- The top-seller request as a state transformer over the store. -/
def topSellerService (np : String → NumVal) (dp : String → Option Int)
    (store : Store) (fileId : String) :
    Store × HResult (String × ℚ) :=
  (store, topSellerHandler np dp store fileId)

/-- The moving-average request as a state transformer over the store. -/
def movingAverageService (np : String → NumVal) (dp : String → Option Int)
    (store : Store) (fileId product : String) (w : Option ℕ) :
    Store × HResult (String × ℕ × List (ℕ × Int × ℚ)) :=
  (store, movingAverageHandler np dp store fileId product w)

/-- The correlation request as a state transformer over the store. -/
noncomputable def correlationService (np : String → NumVal)
    (dp : String → Option Int) (store : Store) (fileId : String) :
    Store × HResult (List (String × List (String × ℝ))) :=
  (store, correlationHandler np dp store fileId)

/-- The forecast request as a state transformer over the store. -/
def forecastService (np : String → NumVal) (dp : String → Option Int)
    (store : Store) (fileId product : String) (months : Option ℕ) :
    Store × HResult (String × ℚ × ℚ × List (ℕ × ℚ)) :=
  (store, forecastHandler np dp store fileId product months)

/-- C9: each of the four analytics requests leaves the store mapping
exactly as it was, and its response depends on the store only through the
row list cached under the requested file id (any store agreeing there
yields the identical response). -/
theorem analytics_requests_readonly (np : String → NumVal)
    (dp : String → Option Int) (store : Store)
    (fileId product : String) (w months : Option ℕ) :
    ((topSellerService np dp store fileId).1 = store ∧
      (movingAverageService np dp store fileId product w).1 = store ∧
      (correlationService np dp store fileId).1 = store ∧
      (forecastService np dp store fileId product months).1 = store) ∧
    (∀ store' : Store, store' fileId = store fileId →
      (topSellerService np dp store' fileId).2 =
        (topSellerService np dp store fileId).2 ∧
      (movingAverageService np dp store' fileId product w).2 =
        (movingAverageService np dp store fileId product w).2 ∧
      (correlationService np dp store' fileId).2 =
        (correlationService np dp store fileId).2 ∧
      (forecastService np dp store' fileId product months).2 =
        (forecastService np dp store fileId product months).2) := by
  refine ⟨⟨rfl, rfl, rfl, rfl⟩, ?_⟩
  intro store' h
  refine ⟨?_, ?_, ?_, ?_⟩
  · show topSellerHandler np dp store' fileId =
      topSellerHandler np dp store fileId
    unfold topSellerHandler
    rw [h]
  · show movingAverageHandler np dp store' fileId product w =
      movingAverageHandler np dp store fileId product w
    unfold movingAverageHandler
    rw [h]
  · show correlationHandler np dp store' fileId =
      correlationHandler np dp store fileId
    unfold correlationHandler
    rw [h]
  · show forecastHandler np dp store' fileId product months =
      forecastHandler np dp store fileId product months
    unfold forecastHandler
    rw [h]

/-- Witness for C9 at the sample store and a second store that agrees
with it on the requested id only. -/
theorem analytics_requests_readonly_witness :
    ((topSellerService np1 dp1 store1 "f").1 = store1 ∧
      (movingAverageService np1 dp1 store1 "f" "A" none).1 = store1 ∧
      (correlationService np1 dp1 store1 "f").1 = store1 ∧
      (forecastService np1 dp1 store1 "f" "A" none).1 = store1) ∧
    ((topSellerService np1 dp1 (fun fid => if fid = "f" then some rows1
        else some []) "f").2 = (topSellerService np1 dp1 store1 "f").2 ∧
      (movingAverageService np1 dp1 (fun fid => if fid = "f" then some rows1
        else some []) "f" "A" none).2 =
        (movingAverageService np1 dp1 store1 "f" "A" none).2 ∧
      (correlationService np1 dp1 (fun fid => if fid = "f" then some rows1
        else some []) "f").2 = (correlationService np1 dp1 store1 "f").2 ∧
      (forecastService np1 dp1 (fun fid => if fid = "f" then some rows1
        else some []) "f" "A" none).2 =
        (forecastService np1 dp1 store1 "f" "A" none).2) :=
  ⟨(analytics_requests_readonly np1 dp1 store1 "f" "A" none none).1,
    (analytics_requests_readonly np1 dp1 store1 "f" "A" none none).2
      (fun fid => if fid = "f" then some rows1 else some []) (by decide)⟩

/-! ## C1: linear-regression forecast -/

/-- Sanity check of the rounding model on a negative tie: `toFixed(4)`
rounds the exact value -0.03125 away from zero, to -0.0313. -/
theorem round4q_neg_tie : round4q (-(1/32)) = -(313/10000) := by
  rw [round4q, if_pos (by norm_num)]
  norm_num

/-- Sanity check of the rounding model on a negative tie: `toFixed(2)`
rounds the exact value -0.125 away from zero, to -0.13. -/
theorem round2q_neg_tie : round2q (-(1/8)) = -(13/100) := by
  rw [round2q, if_pos (by norm_num)]
  norm_num

/-- The claim's OLS slope, written independently of the code as a sum over
the index range with indexed reads: slope is
`Σ(x - x̄)(y - ȳ) / Σ(x - x̄)²` over x = 0, ..., n-1, and 0 when the
denominator is 0. -/
def olsSlopeSpec (y : List ℚ) : ℚ :=
  let n := y.length
  let xbar : ℚ := (∑ i ∈ Finset.range n, (i : ℚ)) / n
  let ybar : ℚ := (∑ i ∈ Finset.range n, y.getD i 0) / n
  let den : ℚ := ∑ i ∈ Finset.range n, ((i : ℚ) - xbar) ^ 2
  if den = 0 then 0
  else (∑ i ∈ Finset.range n, ((i : ℚ) - xbar) * (y.getD i 0 - ybar)) / den

/-- The claim's OLS intercept `ȳ - slope·x̄`. -/
def olsInterceptSpec (y : List ℚ) : ℚ :=
  let n := y.length
  let xbar : ℚ := (∑ i ∈ Finset.range n, (i : ℚ)) / n
  let ybar : ℚ := (∑ i ∈ Finset.range n, y.getD i 0) / n
  ybar - olsSlopeSpec y * xbar

/-- Helper: a list is the tabulation of its indexed reads. -/
theorem list_eq_map_range_getD (y : List ℚ) :
    y = (List.range y.length).map (fun i => y.getD i 0) := by
  apply List.ext_getElem
  · simp
  · intro i h1 h2
    rw [List.getElem_map, List.getElem_range,
      List.getD_eq_getElem y 0 (by simpa using h1)]

/-- Helper: a list sum is the sum of its indexed reads. -/
theorem sum_eq_sum_getD (y : List ℚ) :
    y.sum = ∑ i ∈ Finset.range y.length, y.getD i 0 := by
  conv_lhs => rw [list_eq_map_range_getD y]
  rw [sum_map_range]

/-- Helper: pairing the index range with a list tabulates the indexed
reads. -/
theorem zip_range_eq (y : List ℚ) :
    (List.range y.length).zip y =
      (List.range y.length).map (fun i => (i, y.getD i 0)) := by
  apply List.ext_getElem
  · simp
  · intro i h1 h2
    rw [List.getElem_zip, List.getElem_map, List.getElem_range]
    have hi : i < y.length := by simpa using h2
    rw [List.getD_eq_getElem y 0 hi]

/-- Counterexample to C1 as stated: on the ingested `date`-collision
dataset (columns Month, date, A; the series name A is among the claimed
series columns), the forecast request crashes inside the normalizer and
returns no slope, intercept or predictions at all. -/
theorem forecast_crash_counterexample :
    forecastHandler np1 dp1 storeD "d" "A" (some 3) = .crash ∧
    ¬ ∃ a : String × ℚ × ℚ × List (ℕ × ℚ),
      forecastHandler np1 dp1 storeD "d" "A" (some 3) = .ok a := by
  refine ⟨by decide, ?_⟩
  intro ⟨a, h⟩
  rw [show forecastHandler np1 dp1 storeD "d" "A" (some 3) = .crash
    by decide] at h
  simp at h

/-- C1 amended: on a non-empty series of a dataset that normalizes
successfully (a series column named `date` makes the request crash
instead), the forecast computation returns exactly the claim's OLS slope
and intercept rounded to 4 decimals and the predictions
`intercept + slope·idx` rounded to 2 decimals at indices
n, ..., n + months - 1; the OLS denominator vanishes exactly on series of
fewer than 2 rows (where the slope is 0); the handler's months parameter
defaults to 3; the handler equation holds under the `finiteValues`
hypothesis, where the rational reading is exact; and the perfectly linear
series [10, 20, 30, 40] yields slope 10, intercept 10 and prediction 50
at index 4. -/
theorem forecast_spec (y : List ℚ) (months : ℕ) (hy : 0 < y.length) :
    forecastCalc y months =
      (round4q (olsSlopeSpec y), round4q (olsInterceptSpec y),
        (List.range months).map (fun m =>
          (y.length + m,
            round2q (olsInterceptSpec y +
              olsSlopeSpec y * ((y.length : ℚ) + (m : ℚ)))))) ∧
    (y.length < 2 →
      (∑ i ∈ Finset.range y.length,
        ((i : ℚ) - (∑ j ∈ Finset.range y.length, (j : ℚ)) / y.length) ^ 2) =
        0 ∧ olsSlopeSpec y = 0) ∧
    (2 ≤ y.length →
      (∑ i ∈ Finset.range y.length,
        ((i : ℚ) - (∑ j ∈ Finset.range y.length, (j : ℚ)) / y.length) ^ 2) ≠
        0) ∧
    (∀ (np : String → NumVal) (dp : String → Option Int) (store : Store)
      (fileId product : String),
      forecastHandler np dp store fileId product none =
        forecastHandler np dp store fileId product (some 3)) ∧
    (∀ (np : String → NumVal) (dp : String → Option Int) (store : Store)
      (fileId product : String) (nd : Normalized),
      normalizeSalesData np dp (store fileId) = .ok nd →
      product ∈ nd.seriesCols → finiteValues nd →
      forecastHandler np dp store fileId product (some months) =
        .ok (product, forecastCalc (seriesVals nd product) months)) ∧
    forecastCalc [10, 20, 30, 40] 3 = (10, 10, [(4, 50), (5, 60), (6, 70)]) := by
  have hxm : ((List.range y.length).map (fun (i : ℕ) => (i : ℚ))).sum =
      ∑ i ∈ Finset.range y.length, (i : ℚ) := sum_map_range _ _
  have hden : ∀ xm : ℚ,
      ((List.range y.length).map (fun (xi : ℕ) => ((xi : ℚ) - xm) ^ 2)).sum =
        ∑ i ∈ Finset.range y.length, ((i : ℚ) - xm) ^ 2 := fun xm =>
    sum_map_range _ _
  have hnum : ∀ xm ym : ℚ,
      (((List.range y.length).zip y).map
        (fun p => ((p.1 : ℚ) - xm) * (p.2 - ym))).sum =
        ∑ i ∈ Finset.range y.length, ((i : ℚ) - xm) * (y.getD i 0 - ym) := by
    intro xm ym
    rw [zip_range_eq, List.map_map, sum_map_range]
    rfl
  refine ⟨?_, ?_, ?_, ?_, ?_, ?_⟩
  · simp only [forecastCalc, olsSlopeSpec, olsInterceptSpec,
      hxm, hden, hnum, sum_eq_sum_getD, Nat.cast_add]
  · intro h2
    have h1 : y.length = 1 := by omega
    rw [olsSlopeSpec, h1]
    norm_num
  · intro h2
    intro hzero
    set xbar : ℚ := (∑ j ∈ Finset.range y.length, (j : ℚ)) / y.length with hxb
    have hnn : ∀ i ∈ Finset.range y.length, 0 ≤ ((i : ℚ) - xbar) ^ 2 :=
      fun i _ => sq_nonneg _
    have hall := (Finset.sum_eq_zero_iff_of_nonneg hnn).mp hzero
    have h0 : ((0 : ℚ) - xbar) ^ 2 = 0 := by
      have := hall 0 (Finset.mem_range.mpr (by omega))
      simpa using this
    have h1 : ((1 : ℚ) - xbar) ^ 2 = 0 := by
      have := hall 1 (Finset.mem_range.mpr (by omega))
      simpa using this
    rw [sq_eq_zero_iff] at h0 h1
    have : (0 : ℚ) = 1 := by linarith
    norm_num at this
  · intro np dp store fileId product
    rfl
  · intro np dp store fileId product nd hnd hp _
    unfold forecastHandler
    simp only [hnd, Option.getD_some]
    rw [if_pos hp]
  · norm_num [forecastCalc, round4q, round2q, List.range_succ]

/-- Witness for amended C1 at the perfectly linear series [10, 20, 30, 40]
and at the sample dataset for the handler equation. -/
theorem forecast_spec_witness :
    forecastCalc [10, 20, 30, 40] 3 =
      (round4q (olsSlopeSpec [10, 20, 30, 40]),
        round4q (olsInterceptSpec [10, 20, 30, 40]),
        (List.range 3).map (fun m =>
          ([(10 : ℚ), 20, 30, 40].length + m,
            round2q (olsInterceptSpec [10, 20, 30, 40] +
              olsSlopeSpec [10, 20, 30, 40] *
                (([(10 : ℚ), 20, 30, 40].length : ℚ) + (m : ℚ)))))) ∧
    forecastCalc [10, 20, 30, 40] 3 = (10, 10, [(4, 50), (5, 60), (6, 70)]) ∧
    forecastHandler np1 dp1 store1 "f" "A" (some 3) =
      .ok ("A", forecastCalc (seriesVals nd1 "A") 3) :=
  ⟨(forecast_spec [10, 20, 30, 40] 3 (by norm_num)).1,
    (forecast_spec [10, 20, 30, 40] 3 (by norm_num)).2.2.2.2.2,
    (forecast_spec [10, 20, 30, 40] 3 (by norm_num)).2.2.2.2.1 np1 dp1 store1
      "f" "A" nd1 (by decide) (by decide) (by decide)⟩

/-! ## C2: correlation matrix -/

/-- The mean of a series, in ℝ, as used by the claim's population
formulas. -/
noncomputable def meanR (x : List ℚ) : ℝ :=
  ((x.map (fun (a : ℚ) => (a : ℝ))).sum) / x.length

/-- The claim's population covariance of two series over rows with
matching index (the row count is the length of the first series; the
handler always passes two series of the same length). -/
noncomputable def popCov (x y : List ℚ) : ℝ :=
  (((x.zip y).map
    (fun p => ((p.1 : ℝ) - meanR x) * ((p.2 : ℝ) - meanR y))).sum) / x.length

/-- The claim's population variance of a series. -/
noncomputable def popVar (x : List ℚ) : ℝ :=
  ((x.map (fun (xi : ℚ) => ((xi : ℝ) - meanR x) ^ 2)).sum) / x.length

/-- The claim's population standard deviation of a series. -/
noncomputable def popStddev (x : List ℚ) : ℝ :=
  Real.sqrt (popVar x)

/-- The claim's Pearson coefficient: covariance over the product of the
standard deviations, defined as 0 when that product is 0. -/
noncomputable def pearsonSpec (x y : List ℚ) : ℝ :=
  if popStddev x * popStddev y = 0 then 0
  else popCov x y / (popStddev x * popStddev y)

/-- Helper: a sum of squared deviations is nonnegative. -/
theorem sqsum_nonneg (x : List ℚ) (m : ℝ) :
    0 ≤ ((x.map (fun (xi : ℚ) => ((xi : ℝ) - m) ^ 2)).sum) := by
  apply List.sum_nonneg
  intro a ha
  rw [List.mem_map] at ha
  obtain ⟨xi, _, rfl⟩ := ha
  exact sq_nonneg _

/-- Helper: the code's `pearson` equals the claim's population formula on
two series of equal positive length. -/
theorem pearson_eq_pearsonSpec (x y : List ℚ) (hlen : x.length = y.length)
    (hn : 0 < x.length) : pearson x y = pearsonSpec x y := by
  unfold pearson pearsonSpec popCov popStddev popVar meanR
  dsimp only
  rw [← hlen]
  have hnR : (0 : ℝ) < (x.length : ℝ) := by
    exact_mod_cast hn
  have hn0 : ((x.length : ℝ)) ≠ 0 := ne_of_gt hnR
  set n : ℝ := (x.length : ℝ) with hnn
  set mx : ℝ := ((x.map (fun (a : ℚ) => (a : ℝ))).sum) / n with hmx
  set my : ℝ := ((y.map (fun (a : ℚ) => (a : ℝ))).sum) / n with hmy
  set sx : ℝ := ((x.map (fun (xi : ℚ) => ((xi : ℝ) - mx) ^ 2)).sum) with hsx
  set sy : ℝ := ((y.map (fun (yi : ℚ) => ((yi : ℝ) - my) ^ 2)).sum) with hsy
  set num : ℝ := (((x.zip y).map
    (fun p => ((p.1 : ℝ) - mx) * ((p.2 : ℝ) - my))).sum) with hnum
  have hsx0 : 0 ≤ sx := sqsum_nonneg x mx
  have hsy0 : 0 ≤ sy := sqsum_nonneg y my
  have hdx : Real.sqrt (sx / n) = Real.sqrt sx / Real.sqrt n :=
    Real.sqrt_div hsx0 n
  have hdy : Real.sqrt (sy / n) = Real.sqrt sy / Real.sqrt n :=
    Real.sqrt_div hsy0 n
  have hns : Real.sqrt n * Real.sqrt n = n := Real.mul_self_sqrt (le_of_lt hnR)
  have hprod : Real.sqrt (sx / n) * Real.sqrt (sy / n) =
      (Real.sqrt sx * Real.sqrt sy) / n := by
    rw [hdx, hdy, div_mul_div_comm, hns]
  rw [hprod]
  by_cases hz : Real.sqrt sx * Real.sqrt sy = 0
  · rw [hz]
    simp
  · rw [if_neg hz, if_neg (by
      intro h
      exact hz ((div_eq_zero_iff.mp h).resolve_right hn0))]
    rw [div_div_div_cancel_right₀]
    exact hn0

/-- Helper: the code's `pearson` is symmetric on two series of equal
length. -/
theorem pearson_symm (x y : List ℚ) (hlen : x.length = y.length) :
    pearson x y = pearson y x := by
  unfold pearson
  dsimp only
  rw [← hlen]
  set n : ℝ := (x.length : ℝ) with hnn
  set mx : ℝ := ((x.map (fun (a : ℚ) => (a : ℝ))).sum) / n with hmx
  set my : ℝ := ((y.map (fun (a : ℚ) => (a : ℝ))).sum) / n with hmy
  have hnum : ((y.zip x).map
      (fun p => ((p.1 : ℝ) - my) * ((p.2 : ℝ) - mx))).sum =
      ((x.zip y).map
      (fun p => ((p.1 : ℝ) - mx) * ((p.2 : ℝ) - my))).sum := by
    rw [← List.zip_swap x y, List.map_map]
    apply congrArg
    apply List.map_congr_left
    intro p _
    show ((p.2 : ℝ) - my) * ((p.1 : ℝ) - mx) = _
    ring
  rw [hnum, mul_comm (Real.sqrt ((y.map
    (fun (yi : ℚ) => ((yi : ℝ) - my) ^ 2)).sum))]

/-- Helper: zipping a list with itself tabulates the diagonal pairs. -/
theorem zip_self_eq (x : List ℚ) :
    x.zip x = x.map (fun a => (a, a)) := by
  apply List.ext_getElem
  · simp
  · intro i h1 h2
    rw [List.getElem_zip, List.getElem_map]

/-- Helper: the code's `pearson` of a nonzero-variance series with itself
is 1. -/
theorem pearson_self (x : List ℚ) (hv : popVar x ≠ 0) :
    pearson x x = 1 := by
  have hsx0 : popVar x ≠ 0 := hv
  unfold pearson
  dsimp only
  unfold popVar meanR at hsx0
  set n : ℝ := (x.length : ℝ) with hnn
  set mx : ℝ := ((x.map (fun (a : ℚ) => (a : ℝ))).sum) / n with hmx
  set sx : ℝ := ((x.map (fun (xi : ℚ) => ((xi : ℝ) - mx) ^ 2)).sum) with hsx
  have hsxne : sx ≠ 0 := by
    intro h
    rw [h] at hsx0
    simp at hsx0
  have hnum : ((x.zip x).map
      (fun p => ((p.1 : ℝ) - mx) * ((p.2 : ℝ) - mx))).sum = sx := by
    rw [zip_self_eq, List.map_map, hsx]
    apply congrArg
    apply List.map_congr_left
    intro a _
    show ((a : ℝ) - mx) * ((a : ℝ) - mx) = ((a : ℝ) - mx) ^ 2
    ring
  rw [hnum]
  have hden : Real.sqrt sx * Real.sqrt sx = sx :=
    Real.mul_self_sqrt (sqsum_nonneg x mx)
  rw [hden, if_neg hsxne, div_self hsxne]

/-- Helper: the matrix entry at a pair of known series columns is the
rounded `pearson` of the two extracted series. -/
theorem matrixEntry_eq (nd : Normalized) (a b : String)
    (ha : a ∈ nd.seriesCols) (hb : b ∈ nd.seriesCols) :
    matrixEntry nd a b =
      some (round4r (pearson (seriesVals nd a) (seriesVals nd b))) := by
  unfold matrixEntry correlationMatrix
  rw [objGet_map_self (fun ci => nd.seriesCols.map (fun cj =>
    (cj, round4r (pearson (seriesVals nd ci) (seriesVals nd cj)))))
    nd.seriesCols a ha]
  rw [Option.some_bind]
  rw [objGet_map_self (fun cj =>
    round4r (pearson (seriesVals nd a) (seriesVals nd cj)))
    nd.seriesCols b hb]

/-- Helper: rounding 1 to 4 decimal digits yields 1. -/
theorem round4r_one : round4r 1 = 1 := by
  rw [round4r, if_neg (by norm_num)]
  norm_num

/-- Counterexample to C2 as stated: on the ingested `date`-collision
dataset the correlation request crashes inside the normalizer before any
matrix is built. -/
theorem correlation_crash_counterexample :
    correlationHandler np1 dp1 storeD "d" = .crash ∧
    ¬ ∃ m : List (String × List (String × ℝ)),
      correlationHandler np1 dp1 storeD "d" = .ok m := by
  have hthrown : normalizeSalesData np1 dp1 (storeD "d") = .thrown := by decide
  have hcrash : correlationHandler np1 dp1 storeD "d" = .crash := by
    unfold correlationHandler
    rw [hthrown]
  refine ⟨hcrash, ?_⟩
  intro ⟨m, h⟩
  rw [hcrash] at h
  simp at h

/-- C2 amended: for a dataset that normalizes successfully (a series
column named `date` makes the request crash instead), has at least one
normalized row and finite stored values, every matrix entry at a pair of
known series columns is the claim's population Pearson coefficient of the
two series rounded to 4 decimals (0 when a standard deviation vanishes);
the matrix is symmetric; the diagonal entry of a series with nonzero
population variance is 1; and the handler returns the matrix. -/
theorem correlation_spec (nd : Normalized) (hn : 0 < nd.parsed.length)
    (hfin : finiteValues nd) :
    (∀ a ∈ nd.seriesCols, ∀ b ∈ nd.seriesCols,
      matrixEntry nd a b =
        some (round4r (pearsonSpec (seriesVals nd a) (seriesVals nd b)))) ∧
    (∀ a ∈ nd.seriesCols, ∀ b ∈ nd.seriesCols,
      matrixEntry nd a b = matrixEntry nd b a) ∧
    (∀ a ∈ nd.seriesCols, popVar (seriesVals nd a) ≠ 0 →
      matrixEntry nd a a = some 1) ∧
    (∀ (np : String → NumVal) (dp : String → Option Int) (store : Store)
      (fileId : String), normalizeSalesData np dp (store fileId) = .ok nd →
      correlationHandler np dp store fileId = .ok (correlationMatrix nd)) := by
  have hlen : ∀ c : String, (seriesVals nd c).length = nd.parsed.length := by
    intro c
    rw [seriesVals, List.length_map]
  refine ⟨?_, ?_, ?_, ?_⟩
  · intro a ha b hb
    rw [matrixEntry_eq nd a b ha hb,
      pearson_eq_pearsonSpec _ _ (by rw [hlen, hlen]) (by rw [hlen]; exact hn)]
  · intro a ha b hb
    rw [matrixEntry_eq nd a b ha hb, matrixEntry_eq nd b a hb ha,
      pearson_symm _ _ (by rw [hlen, hlen])]
  · intro a ha hv
    rw [matrixEntry_eq nd a a ha ha, pearson_self _ hv, round4r_one]
  · intro np dp store fileId hnd
    unfold correlationHandler
    simp only [hnd]

/-- Witness for amended C2 at the sample dataset (series A = [10, 20, 30]
and B = [5, 15, 10]). -/
theorem correlation_spec_witness :
    matrixEntry nd1 "A" "B" =
      some (round4r (pearsonSpec (seriesVals nd1 "A") (seriesVals nd1 "B"))) ∧
    matrixEntry nd1 "A" "B" = matrixEntry nd1 "B" "A" ∧
    matrixEntry nd1 "A" "A" = some 1 ∧
    correlationHandler np1 dp1 store1 "f" = .ok (correlationMatrix nd1) := by
  obtain ⟨h1, h2, h3, h4⟩ := correlation_spec nd1 (by decide) (by decide)
  refine ⟨h1 "A" (by decide) "B" (by decide),
    h2 "A" (by decide) "B" (by decide),
    h3 "A" (by decide) ?_, h4 np1 dp1 store1 "f" (by decide)⟩
  have hA : seriesVals nd1 "A" = [10, 20, 30] := by decide
  rw [hA]
  unfold popVar meanR
  norm_num

end CarRental
